import Mathlib

/-
Verification development for the BigDecimal repository (Go).

The repository implements an arbitrary-precision decimal number as a pair of
an unbounded integer magnitude (a Go math/big.Int) and an int32 scale.  The
sources contain two draft variants of several functions; both are embedded
here where a claim cites both.

Embedding conventions, matched against the Go sources:
  - big.Int values are Lean Int (both are unbounded signed integers).
  - big.Int.Div / big.Int.Mod are Euclidean division (Go documents Div as
    Euclidean division with remainder in the interval from 0 to the absolute
    value of the divisor), which is exactly Lean's Int.ediv / Int.emod.
  - big.Int.QuoRem is truncated division toward zero, which is exactly
    Lean's Int.tdiv / Int.tmod.
  - big.Int.Exp(10, y, nil) returns 1 whenever y is not positive, and 10^y
    otherwise; this is bigExp10 below.
  - big.Int.Rsh(x, 1) is an arithmetic shift, i.e. a floor division by 2,
    which is Int.fdiv x 2.
  - int32 arithmetic wraps (two's complement); the explicit conversions and
    the int32 subtractions that can overflow are modelled with wrap32.
    The conversion int64 -> int32 used by the parser and the int32
    subtraction used by rescale both wrap in Go.
  - the uint64 -> int64 conversion of the NewUint64 constructor is a two's
    complement reinterpretation, modelled by int64OfUint64.
  - functions returning (value, error) are modelled as Option; a panic
    (slice out of range in String, explicit panic in the part_002
    shouldRoundUp) is modelled as the none value of an Option result.
  - Go string values are modelled as List Char; big.Int.String is
    intDigitString; strings.Split on a dot is splitOnDot.
-/

set_option maxRecDepth 10000

/-- Two's complement wrap of a mathematical integer into the int32 range,
modelling Go int32 overflow semantics. -/
def wrap32 (z : Int) : Int :=
  (z + 2147483648) % 4294967296 - 2147483648

/-- Behaviour of Go's new(big.Int).Exp(big.NewInt(10), big.NewInt(e), nil):
the result is 1 whenever the exponent is not positive (hence also for the
negative exponents produced by int32 wrap-around), and 10^e otherwise. -/
def bigExp10 (e : Int) : Int :=
  if e < 0 then 1 else 10 ^ e.toNat

/-- The memoized power-of-ten cache of part_000 (pow10).  The Go function
panics for negative exponents; every caller in the sources guards the
argument, so the embedding takes a natural number. -/
def pow10 (n : Nat) : Int := 10 ^ n

/-- The Decimal value representation: an unbounded unscaled integer
magnitude and a scale (int32 in Go).  From part_000 and decimal.go. -/
structure Decimal where
  unscaledValue : Int
  scale : Int
deriving DecidableEq, Repr

/-- The eight rounding modes of rounding.go / part_002. -/
inductive RoundingMode where
  | RoundDown
  | RoundUp
  | RoundCeiling
  | RoundFloor
  | RoundHalfUp
  | RoundHalfDown
  | RoundHalfEven
  | RoundUnnecessary
deriving DecidableEq, Repr

export RoundingMode (RoundDown RoundUp RoundCeiling RoundFloor RoundHalfUp
  RoundHalfDown RoundHalfEven RoundUnnecessary)

/-- shouldRoundUp from rounding.go (the variant taking the isNegative flag).
halfDenom is Rsh(denomAbs, 1), a floor division by two.  The RoundHalfEven
tie-break tests the parity of the remainder (remAbs.Bit(0)).  The switch has
no RoundUnnecessary case, so that mode falls through to the final safety
catch and returns false. -/
def RoundingMode.shouldRoundUp (rm : RoundingMode) (isNegative : Bool)
    (rem denom : Int) : Bool :=
  if rem = 0 then false
  else
    let remAbs : Int := rem.natAbs
    let denomAbs : Int := denom.natAbs
    let halfDenom : Int := Int.fdiv denomAbs 2
    let isExactlyHalf := remAbs = halfDenom
    let isMoreThanHalf := halfDenom < remAbs
    match rm with
    | RoundDown => false
    | RoundUp => true
    | RoundCeiling => !isNegative
    | RoundFloor => isNegative
    | RoundHalfUp => decide isExactlyHalf || decide isMoreThanHalf
    | RoundHalfDown => decide isMoreThanHalf
    | RoundHalfEven =>
        if isMoreThanHalf then true
        else if isExactlyHalf then decide (Int.emod remAbs 2 = 1)
        else false
    | RoundUnnecessary => false

/-- shouldRoundUp from part_002 (the variant without the isNegative flag).
It panics when RoundUnnecessary is dispatched with a non-zero remainder
(the zero remainder was already returned before the switch); the panic is
modelled as none. -/
def shouldRoundUpV2 (rm : RoundingMode) (rem denom : Int) : Option Bool :=
  if rem = 0 then some false
  else
    let remAbs : Int := rem.natAbs
    let denomAbs : Int := denom.natAbs
    let half : Int := Int.fdiv denomAbs 2
    let compareHalf : Ordering := compare remAbs half
    match rm with
    | RoundDown => some false
    | RoundUp => some true
    | RoundCeiling => some (decide (0 < rem))
    | RoundFloor => some (decide (rem < 0))
    | RoundHalfUp => some (decide (compareHalf = .gt) || decide (compareHalf = .eq))
    | RoundHalfDown => some (decide (compareHalf = .gt))
    | RoundHalfEven =>
        if compareHalf = .gt then some true
        else if compareHalf = .lt then some false
        else some (decide (Int.emod rem 2 = 1))
    | RoundUnnecessary => none

/-- rescale from operations.go.  Go computes deltaScale as an int32
difference (which wraps) and divides with big.Int.Div, i.e. Euclidean
division (floor, for the positive powers of ten used here). -/
def rescale (d : Decimal) (targetScale : Int) : Decimal :=
  if d.scale = targetScale then d
  else if targetScale < d.scale then
    let deltaScale := wrap32 (d.scale - targetScale)
    { unscaledValue := Int.ediv d.unscaledValue (bigExp10 deltaScale)
      scale := targetScale }
  else
    let deltaScale := wrap32 (targetScale - d.scale)
    { unscaledValue := d.unscaledValue * bigExp10 deltaScale
      scale := targetScale }

/-- Add from operations.go (a method on Decimal in Go). -/
def Decimal.Add (d other : Decimal) : Decimal :=
  let finalScale := if d.scale < other.scale then other.scale else d.scale
  let d1 := rescale d finalScale
  let d2 := rescale other finalScale
  { unscaledValue := d1.unscaledValue + d2.unscaledValue
    scale := finalScale }

/-- Sub from operations.go (a method on Decimal in Go). -/
def Decimal.Sub (d other : Decimal) : Decimal :=
  let finalScale := if d.scale < other.scale then other.scale else d.scale
  let d1 := rescale d finalScale
  let d2 := rescale other finalScale
  { unscaledValue := d1.unscaledValue - d2.unscaledValue
    scale := finalScale }

/-- Result of the part_003 Add variant.  The struct copy d1 := d copies the
scale field but shares the big.Int pointer with the caller's operand, so the
in-place Mul writes through that pointer; aCell and bCell record the final
contents of the big.Int cells referenced by the first and second operand
after the call returns. -/
structure AddNaiveResult where
  result : Decimal
  aCell : Int
  bCell : Int
deriving DecidableEq, Repr

/-- Add from part_003.  When an operand needs upscaling the code executes
d1.unscaledValue.Mul(d1.unscaledValue, pow10), mutating the operand's own
big.Int in place (d1 shares the pointer with d). -/
def AddNaive (d other : Decimal) : AddNaiveResult :=
  let finalScale := if d.scale < other.scale then other.scale else d.scale
  let d1u := if d.scale < finalScale
    then d.unscaledValue * bigExp10 (wrap32 (finalScale - d.scale))
    else d.unscaledValue
  let d2u := if other.scale < finalScale
    then other.unscaledValue * bigExp10 (wrap32 (finalScale - other.scale))
    else other.unscaledValue
  { result := { unscaledValue := d1u + d2u, scale := finalScale }
    aCell := d1u
    bCell := d2u }

/-- New from decimal.go / part_000: an int64 value with an int32 scale. -/
def New (val : Int) (scale : Int) : Decimal :=
  { unscaledValue := val, scale := scale }

/-- The uint64 -> int64 conversion int64(val) performed by NewUint64 in
decimal.go: a two's complement reinterpretation of the 64-bit pattern. -/
def int64OfUint64 (val : Nat) : Int :=
  if val % 18446744073709551616 < 9223372036854775808
  then (val % 18446744073709551616 : Int)
  else (val % 18446744073709551616 : Int) - 18446744073709551616

/-- NewUint64 from decimal.go: builds the magnitude with
big.NewInt(int64(val)), passing the uint64 through an int64 conversion. -/
def NewUint64 (val : Nat) : Decimal :=
  { unscaledValue := int64OfUint64 val, scale := 0 }

/-- NewFromUint64 from part_000: builds the magnitude with
new(big.Int).SetUint64(val), which is exact for the whole uint64 range. -/
def NewFromUint64 (val : Nat) : Decimal :=
  { unscaledValue := (val : Int), scale := 0 }

/-- NewFromRat from part_000, over the normalized representation of the
big.Rat argument (numerator num, positive denominator den).  QuoRem is
truncated division; Rsh(den, 1) is a floor division by two; the quotient
parity test is Mod(quotient, 2), a Euclidean remainder.  Errors (negative
precision, RoundUnnecessary with a non-zero remainder, an unknown mode in
the default switch arm) are none. -/
def NewFromRat (num den : Int) (precision : Int) (roundingMode : RoundingMode) :
    Option Decimal :=
  if precision < 0 then none
  else if num = 0 then some { unscaledValue := 0, scale := precision }
  else if den = 1 ∧ precision = 0 then some { unscaledValue := num, scale := 0 }
  else
    let tempNum := num * 10 ^ precision.toNat
    let quotient := Int.tdiv tempNum den
    let remainder := Int.tmod tempNum den
    if remainder = 0 then some { unscaledValue := quotient, scale := precision }
    else if roundingMode = RoundUnnecessary then none
    else
      let absRemainder : Int := remainder.natAbs
      let halfDivisor : Int := Int.fdiv den 2
      let cmpResult : Ordering := compare absRemainder halfDivisor
      let isHalfway := cmpResult = .eq ∧ 2 * absRemainder = den
      let shouldIncrement : Option Bool :=
        match roundingMode with
        | RoundUp => some true
        | RoundDown => some false
        | RoundCeiling => some (decide (0 ≤ quotient))
        | RoundFloor => some (decide (quotient < 0))
        | RoundHalfUp => some (decide (cmpResult = .gt) ||
            (decide (cmpResult = .eq) && decide isHalfway))
        | RoundHalfDown => some (decide (cmpResult = .gt))
        | RoundHalfEven =>
            if cmpResult = .gt then some true
            else if cmpResult = .eq ∧ isHalfway
            then some (decide (Int.emod quotient 2 = 1))
            else some false
        | _ => none
      match shouldIncrement with
      | none => none
      | some inc =>
          let q := if inc then
              (if 0 ≤ quotient then quotient + 1 else quotient - 1)
            else quotient
          some { unscaledValue := q, scale := precision }

/-- Splits a character list at the first occurrence of the characters e or E
(the exponent marker scan of NewFromString); returns the part before the
marker and, when a marker exists, the part after it. -/
def splitAtExp : List Char → List Char × Option (List Char)
  | [] => ([], none)
  | c :: rest =>
      if c = 'e' ∨ c = 'E' then ([], some rest)
      else
        let p := splitAtExp rest
        (c :: p.1, p.2)

/-- Go's strings.Split on the dot separator: splitOnDot l lists the
dot-free segments of l, and splitOnDot of the empty list is a single empty
segment. -/
def splitOnDot : List Char → List (List Char)
  | [] => [[]]
  | c :: rest =>
      if c = '.' then [] :: splitOnDot rest
      else
        match splitOnDot rest with
        | [] => [[c]]
        | p :: ps => (c :: p) :: ps

/-- Value of a digit list (the accumulation performed by big.Int.SetString,
restricted to base 10). -/
def digitsToNat (l : List Char) : Nat :=
  l.foldl (fun acc c => acc * 10 + (c.toNat - 48)) 0

/-- big.Int.SetString in base 10 on an unsigned digit string: it fails on an
empty string or on any non-digit character. -/
def setStringNat (l : List Char) : Option Nat :=
  if l ≠ [] ∧ l.all Char.isDigit then some (digitsToNat l) else none

/-- big.Int.SetString in base 10: one optional leading sign followed by a
non-empty run of decimal digits. -/
def setStringInt (l : List Char) : Option Int :=
  match l with
  | '-' :: rest => (setStringNat rest).map (fun n => -(n : Int))
  | '+' :: rest => (setStringNat rest).map (fun n => (n : Int))
  | _ => (setStringNat l).map (fun n => (n : Int))

/-- The mantissa handling shared by both exits of NewFromString: split on the
decimal point (zero or one point allowed), validate the fractional digits,
concatenate the digit substrings, parse them with SetString, apply the sign,
and compute the final scale as mantissaScale - int32(exponent).  Both the
int64 -> int32 conversion of the exponent and the int32 subtraction wrap. -/
def parseMantissa (m : List Char) (isNegative : Bool) (exponent : Int) :
    Option Decimal :=
  let parsed : Option (List Char × Int) :=
    match splitOnDot m with
    | [p] => some (p, 0)
    | [integerPart, fractionalPart] =>
        if fractionalPart = [] then some (integerPart, 0)
        else if fractionalPart.all Char.isDigit
        then some (integerPart ++ fractionalPart, (fractionalPart.length : Int))
        else none
    | _ => none
  match parsed with
  | none => none
  | some (unscaledStr, mantissaScale) =>
      match setStringInt unscaledStr with
      | none => none
      | some u =>
          some { unscaledValue := if isNegative then -u else u
                 scale := wrap32 (mantissaScale - wrap32 exponent) }

/-- NewFromString from part_000 (identical to NewString in decimal.go): sign
strip, exponent-marker scan, exponent parse with an IsInt64 range check, then
the mantissa handling of parseMantissa.  Every error return is none. -/
def NewFromString (s : List Char) : Option Decimal :=
  if s = [] then none
  else
    let stripped : Bool × List Char :=
      match s with
      | '-' :: rest => (true, rest)
      | '+' :: rest => (false, rest)
      | _ => (false, s)
    let isNegative := stripped.1
    let val := stripped.2
    let p := splitAtExp val
    match p.2 with
    | some exponentStr =>
        if exponentStr = [] then none
        else
          match setStringInt exponentStr with
          | none => none
          | some e =>
              if e < -9223372036854775808 ∨ 9223372036854775807 < e then none
              else parseMantissa p.1 isNegative e
    | none => parseMantissa p.1 isNegative 0

/-- The digit string produced by big.Int.String: a minus sign for negative
values followed by the decimal digits of the absolute value. -/
def intDigitString (n : Int) : List Char :=
  if n < 0 then '-' :: Nat.toDigits 10 n.natAbs else Nat.toDigits 10 n.natAbs

/-- String from part_000 (for a validly constructed Decimal, whose magnitude
pointer is not nil).  Scale zero prints the digits; a negative scale
multiplies by pow10(-scale) and prints the enlarged integer; a positive
scale slices the digit string at len(numStr)-scale.  A Go slice with a
negative bound panics, modelled as none; note the slice counts the minus
sign of a negative magnitude as if it were a digit. -/
def decimalString (d : Decimal) : Option (List Char) :=
  let numStr := intDigitString d.unscaledValue
  if d.scale = 0 then some numStr
  else if d.scale < 0 then
    some (intDigitString (d.unscaledValue * pow10 (-d.scale).toNat))
  else
    if (numStr.length : Int) - d.scale < 0 then none
    else
      let cut := numStr.length - d.scale.toNat
      let integerPart := numStr.take cut
      let fractionalPart := numStr.drop cut
      let integerPart' := if integerPart = [] then ['0'] else integerPart
      let fractionalPart' :=
        if fractionalPart.length < d.scale.toNat
        then fractionalPart ++ List.replicate (d.scale.toNat - fractionalPart.length) '0'
        else fractionalPart
      some (integerPart' ++ '.' :: fractionalPart')

/-
Helper lemmas about the embedding.  They resolve the int32 delta wrap under
an explicit range bound and provide the division algebra used by the
rescale composition proof.
-/

theorem wrap32_of_bound {z : Int} (h : z.natAbs < 2147483648) : wrap32 z = z := by
  unfold wrap32
  omega

theorem bigExp10_of_nonneg {e : Int} (h : 0 ≤ e) : bigExp10 e = 10 ^ e.toNat := by
  unfold bigExp10
  rw [if_neg (by omega)]

theorem pow10_pos (n : Nat) : (0 : Int) < 10 ^ n := by positivity

/-- A rescale to the current scale returns the value unchanged. -/
theorem rescale_self (d : Decimal) : rescale d d.scale = d := by
  unfold rescale
  rw [if_pos rfl]

/-- Resolved form of an upscale (or same-scale) rescale when the int32 delta
does not wrap. -/
theorem rescale_up {d : Decimal} {t : Int} (h1 : d.scale ≤ t)
    (h2 : (t - d.scale).natAbs < 2147483648) :
    rescale d t =
      { unscaledValue := d.unscaledValue * 10 ^ (t - d.scale).toNat
        scale := t } := by
  unfold rescale
  by_cases hst : d.scale = t
  · rw [if_pos hst, ← hst]
    simp
  · rw [if_neg hst, if_neg (by omega)]
    simp only [wrap32_of_bound h2,
      bigExp10_of_nonneg (show (0:ℤ) ≤ t - d.scale by omega)]

/-- Resolved form of a downscale rescale when the int32 delta does not
wrap: a Euclidean (floor) division by the power of ten. -/
theorem rescale_down {d : Decimal} {t : Int} (h1 : t < d.scale)
    (h2 : (d.scale - t).natAbs < 2147483648) :
    rescale d t =
      { unscaledValue := Int.ediv d.unscaledValue (10 ^ (d.scale - t).toNat)
        scale := t } := by
  unfold rescale
  rw [if_neg (by omega), if_pos (by omega)]
  simp only [wrap32_of_bound h2,
    bigExp10_of_nonneg (show (0:ℤ) ≤ d.scale - t by omega)]

theorem mul_pow_ediv_pow_of_le (u : Int) {a b : Nat} (h : b ≤ a) :
    Int.ediv (u * 10 ^ a) (10 ^ b) = u * 10 ^ (a - b) := by
  have hsplit : (10 : Int) ^ a = 10 ^ (a - b) * 10 ^ b := by
    rw [← pow_add]
    congr 1
    omega
  rw [hsplit, ← mul_assoc]
  exact Int.mul_ediv_cancel _ (by positivity)

theorem mul_pow_ediv_pow_of_ge (u : Int) {a b : Nat} (h : a ≤ b) :
    Int.ediv (u * 10 ^ a) (10 ^ b) = Int.ediv u (10 ^ (b - a)) := by
  have hsplit : (10 : Int) ^ b = 10 ^ a * 10 ^ (b - a) := by
    rw [← pow_add]
    congr 1
    omega
  rw [hsplit, mul_comm u]
  exact Int.mul_ediv_mul_of_pos _ _ (pow10_pos a)

/-- Composition of two Euclidean divisions by positive divisors. -/
theorem ediv_ediv_of_pos (u : Int) {m n : Int} (hm : 0 < m) (hn : 0 < n) :
    Int.ediv (Int.ediv u m) n = Int.ediv u (m * n) := by
  have hmn : 0 < m * n := mul_pos hm hn
  have h1 : u % m + m * (u / m) = u := Int.emod_add_ediv u m
  have h2 : u / m % n + n * (u / m / n) = u / m := Int.emod_add_ediv (u / m) n
  have hr1 : 0 ≤ u % m := Int.emod_nonneg u (by omega)
  have hr1b : u % m < m := Int.emod_lt_of_pos u hm
  have hr2 : 0 ≤ u / m % n := Int.emod_nonneg _ (by omega)
  have hr2b : u / m % n < n := Int.emod_lt_of_pos _ hn
  have key : (u % m + m * (u / m % n)) + m * n * (u / m / n) = u := by
    nlinarith [h1, h2]
  have hble : u % m + m * (u / m % n) < m * n := by
    nlinarith [hr1b, hr2b, hm, hn]
  have hnn : 0 ≤ u % m + m * (u / m % n) := by positivity
  have := (Int.ediv_emod_unique hmn).mpr ⟨key, hnn, hble⟩
  exact this.1.symm

/-- Alignment scale of Add and Sub equals the maximum of the two scales. -/
theorem finalScale_eq_max (a b : Decimal) :
    (if a.scale < b.scale then b.scale else a.scale) = max a.scale b.scale := by
  rw [max_def]
  split_ifs <;> omega

/-
Claim theorems.  Each theorem is preceded by the claim identifier from
CLAIMS.json and a natural-language statement of what is proved.
-/

/-- Claim C1 (code evaluated at the failing inputs): the claim says a
HalfEven tie increments the quotient's magnitude exactly when the truncated
quotient's least-significant digit is odd, and that rescaling 25 at scale 1
to scale 0 gives 2 while 35 at scale 1 gives 4.  On the code:
shouldRoundUp decides the tie 5/10 (arising from 25/10, whose truncated
quotient 2 is even) by the parity of the remainder and answers true; the
rescale path applies no rounding at all, so 25 at scale 1 truncates to 2 and
35 at scale 1 truncates to 3, not 4; only NewFromRat implements the claimed
quotient-parity tie-break (5/2 at precision 0 gives 2, 7/2 gives 4). -/
theorem halfEven_tie_break_eval :
    RoundingMode.shouldRoundUp RoundHalfEven false 5 10 = true ∧
    Int.tdiv 25 10 = 2 ∧
    rescale (New 25 1) 0 = New 2 0 ∧
    rescale (New 35 1) 0 = New 3 0 ∧
    NewFromRat 5 2 0 RoundHalfEven = some (New 2 0) ∧
    NewFromRat 7 2 0 RoundHalfEven = some (New 4 0) := by decide

/-- Claim C2 (code evaluated at the failing input): the claim says HalfUp
rounds up exactly when twice the absolute remainder is at least the
divisor, so remainder 2 with divisor 5 must not round up.  Both
shouldRoundUp variants compare the remainder against Rsh(divisor, 1), the
floor of half an odd divisor, and answer true for remainder 2 and divisor
5 even though 2 times 2 is less than 5; NewFromRat performs the exact
comparison and does not increment 2/5 at precision 0. -/
theorem halfUp_odd_divisor_eval :
    RoundingMode.shouldRoundUp RoundHalfUp false 2 5 = true ∧
    shouldRoundUpV2 RoundHalfUp 2 5 = some true ∧
    ¬ (5 ≤ 2 * (2 : Int)) ∧
    NewFromRat 2 5 0 RoundHalfUp = some (New 0 0) := by decide

/-- Claim C3 (code evaluated at the failing input): the claim says every
rounding path signals RoundingRequired in the Unnecessary mode when the
remainder is non-zero.  The rounding.go shouldRoundUp switch has no
RoundUnnecessary case, so the mode falls into the safety catch and
silently answers false (a silent truncation); the part_002 variant panics
and NewFromRat returns an error as claimed. -/
theorem unnecessary_mode_eval :
    RoundingMode.shouldRoundUp RoundUnnecessary false 3 10 = false ∧
    shouldRoundUpV2 RoundUnnecessary 3 10 = none ∧
    NewFromRat 1 3 2 RoundUnnecessary = none := by decide

/-- Claim C4, counterexample: for operands whose scales differ by 2^31 or
more the int32 delta in rescale wraps to a negative value, Exp returns 1,
and the upscale multiplies by 1 instead of the claimed exact power of ten:
adding 1 at scale -2147483648 (value 10^2147483648) and 1 at scale 0 yields
unscaled 2 at scale 0, not the exact aligned sum. -/
theorem add_wrap_counterexample :
    Decimal.Add (New 1 (-2147483648)) (New 1 0) = New 2 0 ∧
    Decimal.Add (New 1 (-2147483648)) (New 1 0) ≠
      New (1 * 10 ^ (2147483648 : Nat) + 1 * 10 ^ (0 : Nat)) 0 := by
  have heval : Decimal.Add (New 1 (-2147483648)) (New 1 0) = New 2 0 := by decide
  refine ⟨heval, ?_⟩
  rw [heval]
  intro hcontra
  have h2 : (2 : Int) = 1 * 10 ^ (2147483648 : Nat) + 1 * 10 ^ (0 : Nat) :=
    congrArg Decimal.unscaledValue hcontra
  rw [one_mul, pow_zero, mul_one] at h2
  have h1 : (1 : Int) < 10 ^ (2147483648 : Nat) :=
    one_lt_pow₀ (by norm_num) (by norm_num)
  have h3 : (1 : Int) + 1 < 10 ^ (2147483648 : Nat) + 1 := add_lt_add_right h1 1
  rw [← h2] at h3
  exact absurd h3 (by norm_num)

/-- Claim C4 (amended): whenever the two scales differ by less than 2^31
(so the int32 delta does not wrap), Add and Sub rescale both operands to
the maximum of the two scales by exact upscaling, add or subtract the
unscaled magnitudes, and produce that maximum as the result scale. -/
theorem add_sub_align (a b : Decimal)
    (hb : (a.scale - b.scale).natAbs < 2147483648) :
    Decimal.Add a b =
      { unscaledValue :=
          a.unscaledValue * 10 ^ (max a.scale b.scale - a.scale).toNat +
          b.unscaledValue * 10 ^ (max a.scale b.scale - b.scale).toNat
        scale := max a.scale b.scale } ∧
    Decimal.Sub a b =
      { unscaledValue :=
          a.unscaledValue * 10 ^ (max a.scale b.scale - a.scale).toNat -
          b.unscaledValue * 10 ^ (max a.scale b.scale - b.scale).toNat
        scale := max a.scale b.scale } := by
  constructor
  · unfold Decimal.Add
    simp only [finalScale_eq_max a b,
      rescale_up (le_max_left a.scale b.scale) (by omega),
      rescale_up (le_max_right a.scale b.scale) (by omega)]
  · unfold Decimal.Sub
    simp only [finalScale_eq_max a b,
      rescale_up (le_max_left a.scale b.scale) (by omega),
      rescale_up (le_max_right a.scale b.scale) (by omega)]

/-- Claim C4, witness: the literal scenario of the claim, obtained from the
amended theorem at New(12345, 2) and New(567, 1). -/
theorem add_sub_align_witness :
    Decimal.Add (New 12345 2) (New 567 1) = New 18015 2 ∧
    Decimal.Sub (New 12345 2) (New 567 1) = New 6675 2 := by
  have h := add_sub_align (New 12345 2) (New 567 1) (by decide)
  constructor
  · rw [h.1]
    decide
  · rw [h.2]
    decide

/-- Claim C5 (code evaluated at the failing input): the claim (and the Go
doc comment on rescale) says downscaling truncates toward zero, so -15 at
scale 1 rescaled to scale 0 would give -1; big.Int.Div is Euclidean
division, which floors toward negative infinity for the positive power of
ten, giving -2. -/
theorem rescale_floor_division_eval :
    rescale (New (-15) 1) 0 = New (-2) 0 ∧
    Int.tdiv (-15) 10 = -1 ∧
    New (-2) 0 ≠ New (-1) 0 := by decide

/-- Claim C6 (code evaluated at the failing input): the literal scenarios
of the claim hold, but the final scale is computed as an int32 difference
after an int32 conversion of the int64 exponent, so an accepted exponent
of 4294967296 wraps to 0 and the input 1e4294967296 silently parses with
scale 0 instead of the claimed scale 0 - 4294967296. -/
theorem parser_exponent_wrap_eval :
    NewFromString ("1.23e+5").data = some (New 123 (-3)) ∧
    NewFromString ("-4.5E-2").data = some (New (-45) 3) ∧
    NewFromString ("1e4294967296").data = some (New 1 0) ∧
    (0 : Int) ≠ 0 - 4294967296 := by decide

/-- Claim C7 (code evaluated at the failing inputs): the claimed rendering
holds when the digit string is at least as long as the scale (unscaled 5 at
scale 1 gives 0.5, unscaled 100000 at scale 2 gives 1000.00), but a
magnitude with fewer digits than the scale makes the slice bound negative
and panics (none), and the minus sign of a negative magnitude is counted by
the slice as if it were a digit, so -5 at scale 2 renders 0.-5 and -5 at
scale 1 renders -.5 with the sign inside the split. -/
theorem formatter_short_magnitude_eval :
    decimalString (New 5 1) = some ("0.5").data ∧
    decimalString (New 100000 2) = some ("1000.00").data ∧
    decimalString (New 5 2) = none ∧
    decimalString (New (-5) 2) = some ("0.-5").data ∧
    decimalString (New (-5) 1) = some ("-.5").data := by decide

/-- Claim C8 (code evaluated at the failing input): the part_003 Add
multiplies the first operand's shared big.Int in place when that operand
needs upscaling: after New(1, 0).Add(New(5, 1)) the cell referenced by the
first operand holds 10, no longer the original 1. -/
theorem addNaive_mutates_operand_eval :
    AddNaive (New 1 0) (New 5 1) =
      { result := New 15 1, aCell := 10, bCell := 5 } ∧
    (New 1 0).unscaledValue = 1 ∧
    (10 : Int) ≠ 1 := by decide

/-- Claim C9, counterexample: the claimed side condition admits a lossy
intermediate downscale followed by an upscale: for 15 at scale 1 with
s1 = 0 and s2 = 1 the condition s2 at least min(s1, scale) holds, yet
rescaling via scale 0 gives 10 at scale 1 while the direct rescale keeps
15 at scale 1. -/
theorem rescale_rescale_counterexample :
    (1 : Int) ≥ min 0 (New 15 1).scale ∧
    rescale (rescale (New 15 1) 0) 1 ≠ rescale (New 15 1) 1 := by decide

/-- Claim C9 (amended): whenever the intermediate rescale is not a lossy
downscale below the final target (the first target is at least the starting
scale, or the second target is at most the first), and each scale
difference is below 2^31 so no int32 delta wraps, composing the two
rescales equals the direct rescale. -/
theorem rescale_rescale (a : Decimal) (s1 s2 : Int)
    (hb1 : (s1 - a.scale).natAbs < 2147483648)
    (hb2 : (s2 - s1).natAbs < 2147483648)
    (hb3 : (s2 - a.scale).natAbs < 2147483648)
    (h : a.scale ≤ s1 ∨ s2 ≤ s1) :
    rescale (rescale a s1) s2 = rescale a s2 := by
  by_cases hA : a.scale ≤ s1
  · rw [rescale_up hA hb1]
    by_cases hB : s1 ≤ s2
    · rw [@rescale_up
        ⟨a.unscaledValue * 10 ^ (s1 - a.scale).toNat, s1⟩ s2 hB
        (by omega : (s2 - s1).natAbs < 2147483648)]
      rw [rescale_up (le_trans hA hB) hb3]
      have hexp : (s1 - a.scale).toNat + (s2 - s1).toNat = (s2 - a.scale).toNat := by
        omega
      rw [mul_assoc, ← pow_add, hexp]
    · have hB' : s2 < s1 := by omega
      rw [@rescale_down
        ⟨a.unscaledValue * 10 ^ (s1 - a.scale).toNat, s1⟩ s2 hB'
        (by omega : (s1 - s2).natAbs < 2147483648)]
      by_cases hC : a.scale ≤ s2
      · rw [rescale_up hC hb3]
        have hle : (s1 - s2).toNat ≤ (s1 - a.scale).toNat := by omega
        rw [mul_pow_ediv_pow_of_le a.unscaledValue hle]
        have hexp : (s1 - a.scale).toNat - (s1 - s2).toNat = (s2 - a.scale).toNat := by
          omega
        rw [hexp]
      · rw [rescale_down (show s2 < a.scale by omega)
          (by omega : (a.scale - s2).natAbs < 2147483648)]
        have hle : (s1 - a.scale).toNat ≤ (s1 - s2).toNat := by omega
        rw [mul_pow_ediv_pow_of_ge a.unscaledValue hle]
        have hexp : (s1 - s2).toNat - (s1 - a.scale).toNat = (a.scale - s2).toNat := by
          omega
        rw [hexp]
  · have hs1 : s1 < a.scale := by omega
    have hs2 : s2 ≤ s1 := h.resolve_left hA
    rw [rescale_down hs1 (by omega : (a.scale - s1).natAbs < 2147483648)]
    by_cases hD : s2 = s1
    · subst hD
      rw [rescale_down (show s2 < a.scale by omega)
        (by omega : (a.scale - s2).natAbs < 2147483648)]
      exact rescale_self _
    · have hD' : s2 < s1 := by omega
      rw [@rescale_down
        ⟨Int.ediv a.unscaledValue (10 ^ (a.scale - s1).toNat), s1⟩ s2 hD'
        (by omega : (s1 - s2).natAbs < 2147483648)]
      rw [rescale_down (show s2 < a.scale by omega)
        (by omega : (a.scale - s2).natAbs < 2147483648)]
      rw [ediv_ediv_of_pos a.unscaledValue (pow10_pos _) (pow10_pos _), ← pow_add]
      have hexp : (a.scale - s1).toNat + (s1 - s2).toNat = (a.scale - s2).toNat := by
        omega
      rw [hexp]

/-- Claim C9, witness: a concrete instance of the amended composition law,
an exact upscale to scale 3 followed by a downscale to scale 0. -/
theorem rescale_rescale_witness :
    rescale (rescale (New 15 1) 3) 0 = rescale (New 15 1) 0 :=
  rescale_rescale (New 15 1) 3 0 (by decide) (by decide) (by decide)
    (Or.inl (by decide))

/-- Claim C10 (code evaluated at the failing input): NewUint64 converts the
uint64 through int64, so 18446744073709551615 wraps to unscaled -1, while
the NewFromUint64 variant uses SetUint64 and is exact. -/
theorem newUint64_wrap_eval :
    NewUint64 18446744073709551615 = New (-1) 0 ∧
    NewFromUint64 18446744073709551615 = New 18446744073709551615 0 ∧
    (-1 : Int) ≠ 18446744073709551615 := by decide
